import Mathlib

/-!
Shallow embedding of the profile-store subsystem of the trieve CLI
(src/main.rs, src/commands/configure.rs, src/commands/profile.rs,
src/commands/organization.rs, src/commands/login_server.rs).

Machine integers do not occur in the modelled code paths; UUIDs are
modelled as natural numbers with 0 playing the role of the nil UUID,
since the code only ever compares UUIDs for equality and against nil.
Strings are modelled as Lean strings (profile names, api keys, urls)
and, for the byte-oriented listener code, as lists of characters.
-/

/-- Embeds struct TrieveConfiguration (src/commands/configure.rs):
api_key, organization_id (uuid, 0 = nil), api_url.  Rust derives
PartialEq, so equality is structural. -/
structure TrieveConfiguration where
  api_key : String
  organization_id : Nat
  api_url : String
deriving DecidableEq

/-- Embeds struct TrieveProfileInner (src/commands/configure.rs):
a named profile entry with settings and a selection flag. -/
structure TrieveProfileInner where
  name : String
  settings : TrieveConfiguration
  selected : Bool
deriving DecidableEq

/-- Embeds impl Default for TrieveConfiguration: empty api key,
nil organization uuid, production url. -/
def TrieveConfiguration.default : TrieveConfiguration :=
  { api_key := "", organization_id := 0, api_url := "https://api.trieve.ai" }

/-- Embeds impl Default for TrieveProfileInner: name "default",
default settings, selected = false. -/
def TrieveProfileInner.default : TrieveProfileInner :=
  { name := "default", settings := TrieveConfiguration.default, selected := false }

/-- Embeds impl Default for TrieveProfile: a one-element collection
holding the default profile entry. -/
def defaultProfiles : List TrieveProfileInner := [TrieveProfileInner.default]

/-- Embeds the load in main.rs / configure.rs:
confy load of ("trieve", "profiles") with map_err + unwrap_or_default.
The argument is none when the persisted state is absent or unreadable,
some c when deserialization produced collection c. -/
def loadProfiles : Option (List TrieveProfileInner) → List TrieveProfileInner
  | none => defaultProfiles
  | some c => c

/-- Outcome of the store-mutating tail of login (configure.rs):
cancelled models process::exit(0) on a refused overwrite prompt
(nothing is saved); saved c models confy::store of collection c. -/
inductive LoginResult where
  | cancelled : LoginResult
  | saved : List TrieveProfileInner → LoginResult
deriving DecidableEq

/-- Embeds the condition at configure.rs lines 215-218: some entry has
the requested name and a non-nil organization uuid.  The api key is not
consulted by the code. -/
def needsConfirm (profiles : List TrieveProfileInner) (profile_name : String) : Bool :=
  profiles.any (fun p => p.name == profile_name && !(p.settings.organization_id == 0))

/-- Worker for dedupByName: last is the most recently retained entry;
each subsequent entry is dropped when its name equals last's name. -/
def dedupByNameGo : TrieveProfileInner → List TrieveProfileInner → List TrieveProfileInner
  | _, [] => []
  | last, q :: rest =>
    if q.name == last.name then dedupByNameGo last rest
    else q :: dedupByNameGo q rest

/-- Embeds Vec::dedup_by_key(|p| p.name.clone()) (configure.rs line 230):
removes all but the first of each run of consecutive entries with equal
names; each element is compared against the last retained one. -/
def dedupByName : List TrieveProfileInner → List TrieveProfileInner
  | [] => []
  | p :: rest => p :: dedupByNameGo p rest

/-- Embeds profiles.iter_mut().for_each(|p| p.selected = false)
(configure.rs line 231). -/
def clearSelected (profiles : List TrieveProfileInner) : List TrieveProfileInner :=
  profiles.map (fun p => { p with selected := false })

/-- Embeds the profile-store mutation performed by login
(configure.rs lines 215-244), with the two interactive inputs made
explicit: profile_name (the chosen profile name), config (the
TrieveConfiguration produced by configure), and overwrite (the answer
to the "Profile already exists. Overwrite?" prompt, consulted only when
the prompt is shown).  Control flow mirrors the source: the retain that
drops same-named entries runs only inside the confirmation branch;
dedup_by_key, the selected-flag clear and the push run on every path
that reaches the store. -/
def loginStore (profiles : List TrieveProfileInner) (profile_name : String)
    (config : TrieveConfiguration) (overwrite : Bool) : LoginResult :=
  if needsConfirm profiles profile_name then
    if overwrite then
      let profiles := profiles.filter (fun p => !(p.name == profile_name))
      let profiles := dedupByName profiles
      let profiles := clearSelected profiles
      .saved (profiles ++ [{ name := profile_name, settings := config, selected := true }])
    else
      .cancelled
  else
    let profiles := dedupByName profiles
    let profiles := clearSelected profiles
    .saved (profiles ++ [{ name := profile_name, settings := config, selected := true }])

/-- Outcome of switch_profile (profile.rs): notFound models the
eprintln + exit(1) when no entry bears the requested name; saved c
models confy::store of c. -/
inductive SwitchResult where
  | notFound : SwitchResult
  | saved : List TrieveProfileInner → SwitchResult
deriving DecidableEq

/-- Embeds switch_profile (profile.rs lines 7-60) for an explicitly
given profile name: exit(1) when the name is absent, otherwise rebuild
every entry with selected = (its name equals the requested one) and
persist. -/
def switchProfileStore (profiles : List TrieveProfileInner) (profile_name : String) :
    SwitchResult :=
  if profiles.any (fun p => p.name == profile_name) then
    .saved (profiles.map (fun p =>
      if p.name == profile_name then
        { name := p.name, selected := true, settings := p.settings }
      else
        { name := p.name, selected := false, settings := p.settings }))
  else
    .notFound

/-- Outcome of delete_profile (profile.rs): notFound models exit(1) on
an absent name, lastProfile models the "Cannot delete the last
profile." exit(1) (nothing saved), saved c models confy::store of c. -/
inductive DeleteResult where
  | notFound : DeleteResult
  | lastProfile : DeleteResult
  | saved : List TrieveProfileInner → DeleteResult
deriving DecidableEq

/-- Embeds profiles[0].selected = true (profile.rs line 125): sets the
selected flag on the first entry of a non-empty list. -/
def promoteFirst : List TrieveProfileInner → List TrieveProfileInner
  | [] => []
  | p :: rest => { p with selected := true } :: rest

/-- Embeds delete_profile (profile.rs lines 90-138) for an explicitly
given profile name: find the entry (exit(1) if absent), filter out all
entries with that name, and only when the found entry was selected
check for emptiness (exit(1) "Cannot delete the last profile.") and
promote the first remaining entry; then persist. -/
def deleteProfileStore (profiles : List TrieveProfileInner) (profile_name : String) :
    DeleteResult :=
  match profiles.find? (fun p => p.name == profile_name) with
  | none => .notFound
  | some profile =>
    let remaining := profiles.filter (fun p => !(p.name == profile_name))
    if profile.selected then
      if remaining.isEmpty then .lastProfile
      else .saved (promoteFirst remaining)
    else
      .saved remaining

/-- Embeds the store rewrite of switch_organization (organization.rs
lines 68-91): new_config keeps the active api_key and api_url and
replaces organization_id; every entry whose settings equal the active
settings gets new_config and selected = true, every other entry keeps
its settings and gets selected = false. -/
def switchOrgStore (profiles : List TrieveProfileInner) (settings : TrieveConfiguration)
    (newOrg : Nat) : List TrieveProfileInner :=
  let new_config : TrieveConfiguration :=
    { api_key := settings.api_key, organization_id := newOrg, api_url := settings.api_url }
  profiles.map (fun p =>
    if p.settings = settings then
      { name := p.name, selected := true, settings := new_config }
    else
      { name := p.name, selected := false, settings := p.settings })

/-- Number of entries with selected = true. -/
def countSelected (profiles : List TrieveProfileInner) : Nat :=
  profiles.countP (fun p => p.selected)

/-- All names pairwise distinct, as a Boolean predicate. -/
def namesDistinct : List TrieveProfileInner → Bool
  | [] => true
  | p :: rest => rest.all (fun q => !(q.name == p.name)) && namesDistinct rest

/-- The Unicode White_Space property, as used by Rust's
char::is_whitespace / str::split_whitespace. -/
def rustWhitespace (c : Char) : Bool :=
  (0x9 ≤ c.toNat && c.toNat ≤ 0xD) || c.toNat == 0x20 || c.toNat == 0x85 ||
  c.toNat == 0xA0 || c.toNat == 0x1680 ||
  (0x2000 ≤ c.toNat && c.toNat ≤ 0x200A) ||
  c.toNat == 0x2028 || c.toNat == 0x2029 || c.toNat == 0x202F ||
  c.toNat == 0x205F || c.toNat == 0x3000

/-- Worker for splitWs: acc holds the current field reversed. -/
def splitWsGo : List Char → List Char → List (List Char)
  | [], acc => if acc.isEmpty then [] else [acc.reverse]
  | c :: rest, acc =>
    if rustWhitespace c then
      if acc.isEmpty then splitWsGo rest []
      else acc.reverse :: splitWsGo rest []
    else
      splitWsGo rest (c :: acc)

/-- Embeds str::split_whitespace (login_server.rs line 15): splits on
Unicode whitespace, discarding empty fields. -/
def splitWs (s : List Char) : List (List Char) :=
  splitWsGo s []

/-- Drops one trailing carriage return, as str::lines does on a line
whose terminating newline was removed. -/
def stripCr (l : List Char) : List Char :=
  match l.reverse with
  | '\r' :: rest => rest.reverse
  | _ => l

/-- Embeds request.lines().next() (login_server.rs line 11): none on
the empty string; otherwise the text before the first newline, with a
carriage return stripped only when a newline was actually present. -/
def firstLine : List Char → Option (List Char)
  | [] => none
  | c :: rest =>
    let s := c :: rest
    let t := s.takeWhile (fun d => !(d == '\n'))
    if t.length == s.length then some t else some (stripCr t)

/-- pat matches at the head of s. -/
def leadsList : List Char → List Char → Bool
  | [], _ => true
  | _ :: _, [] => false
  | a :: pat, b :: s => a == b && leadsList pat s

/-- Embeds str::find(pattern) (login_server.rs line 18): index (in
characters) of the leftmost occurrence of pat in s. -/
def strFind (pat : List Char) : List Char → Option Nat
  | [] => if leadsList pat [] then some 0 else none
  | b :: s => if leadsList pat (b :: s) then some 0 else (strFind pat s).map (· + 1)

/-- Embeds str::find('&') (login_server.rs line 24): index of the
leftmost occurrence of the character c in s. -/
def charFind (c : Char) : List Char → Option Nat
  | [] => none
  | d :: s => if d == c then some 0 else (charFind c s).map (· + 1)

/-- The marker "apiKey=" (login_server.rs line 12). -/
def apiKeyMarker : List Char := "apiKey=".toList

/-- Embeds extract_api_key (login_server.rs lines 9-34) over lists of
characters.  Byte indices of the Rust code become character indices;
this is sound because every index the code computes is the boundary of
a found ASCII pattern, so byte-slicing and character-slicing denote the
same substring. -/
def extract_api_key (request : List Char) : Option (List Char) :=
  match firstLine request with
  | none => none
  | some request_line =>
    match (splitWs request_line)[1]? with
    | none => none
    | some url_part =>
      match strFind apiKeyMarker url_part with
      | none => none
      | some start_pos =>
        let value_start_pos := start_pos + apiKeyMarker.length
        let value_end_pos :=
          match charFind '&' (url_part.drop value_start_pos) with
          | none => url_part.length
          | some pos => value_start_pos + pos
        some ((url_part.take value_end_pos).drop value_start_pos)

/-- Bounds-checked slice s[a..b]: none models a Rust slicing panic
(start beyond end, or end beyond the length). -/
def sliceChecked (s : List Char) (a b : Nat) : Option (List Char) :=
  if a ≤ b && b ≤ s.length then some ((s.take b).drop a) else none

/-- extract_api_key with both Rust string slices bounds-checked: the
outer none models a panic of the function, some r models a normal
return of r (the Rust Option). -/
def extractApiKeyChecked (request : List Char) : Option (Option (List Char)) :=
  match firstLine request with
  | none => some none
  | some request_line =>
    match (splitWs request_line)[1]? with
    | none => some none
    | some url_part =>
      match strFind apiKeyMarker url_part with
      | none => some none
      | some start_pos =>
        let value_start_pos := start_pos + apiKeyMarker.length
        match sliceChecked url_part value_start_pos url_part.length with
        | none => none
        | some tail =>
          let value_end_pos :=
            match charFind '&' tail with
            | none => url_part.length
            | some pos => value_start_pos + pos
          match sliceChecked url_part value_start_pos value_end_pos with
          | none => none
          | some value => some (some value)

/-- pat occurs somewhere in s (an occurrence may be at any suffix). -/
def containsSub (pat : List Char) : List Char → Bool
  | [] => leadsList pat []
  | b :: s => leadsList pat (b :: s) || containsSub pat s

/-- A token is extractable from a request exactly when the request has
a first line, that line has a second whitespace-separated field, and
that field contains the apiKey= marker. -/
def canExtract (request : List Char) : Bool :=
  match firstLine request with
  | none => false
  | some request_line =>
    match (splitWs request_line)[1]? with
    | none => false
    | some url_part => containsSub apiKeyMarker url_part

/-- The token the spec describes: the part of the request target
between the end of the first apiKey= occurrence (at index start_pos)
and the next ampersand, or the end of the target when no ampersand
follows. -/
def specTokenAt (url_part : List Char) (start_pos : Nat) : List Char :=
  (url_part.drop (start_pos + apiKeyMarker.length)).takeWhile (fun d => !(d == '&'))

/-- Outcome of handle_read (login_server.rs lines 36-45): sent t models
a successful tx.send(t); panicked models the .unwrap() of a None
extraction panicking the per-connection task; readFailed models the
Err branch (prints, no send). -/
inductive ReadOutcome where
  | sent : List Char → ReadOutcome
  | panicked : ReadOutcome
  | readFailed : ReadOutcome
deriving DecidableEq

/-- The 4096-byte zero-initialized read buffer after a read delivering
an ASCII payload, viewed through String::from_utf8_lossy (which is the
identity on ASCII bytes, and maps each zero byte to the NUL
character). -/
def bufferChars (payload : List Char) : List Char :=
  payload ++ List.replicate (4096 - payload.length) (Char.ofNat 0)

/-- Embeds handle_read (login_server.rs lines 36-45) on a connection
whose read yields an ASCII payload (argument some payload) or fails
(argument none): on success the code sends
extract_api_key(..).unwrap() — which panics when extraction fails. -/
def handle_read (readResult : Option (List Char)) : ReadOutcome :=
  match readResult with
  | none => .readFailed
  | some payload =>
    match extract_api_key (bufferChars payload) with
    | some token => .sent token
    | none => .panicked

/-- The overwrite-confirmation condition as claim C4 words it:
an entry with the requested name exists that is provisioned, i.e. NOT
(nil organization uuid together with an empty api key). -/
def claimNeedsConfirm (profiles : List TrieveProfileInner) (profile_name : String) : Bool :=
  profiles.any (fun p =>
    p.name == profile_name &&
    !(p.settings.organization_id == 0 && p.settings.api_key == ""))

/-- Worker for dedupKeepFirst: seen is the list of names already kept;
an entry whose name was already seen is dropped wherever it occurs. -/
def dedupKeepFirstGo : List String → List TrieveProfileInner → List TrieveProfileInner
  | _, [] => []
  | seen, p :: rest =>
    if seen.contains p.name then dedupKeepFirstGo seen rest
    else p :: dedupKeepFirstGo (p.name :: seen) rest

/-- Global deduplication by name keeping the first occurrence of each
name, including non-adjacent duplicates — the operation the spec's
upsert description names. -/
def dedupKeepFirst (profiles : List TrieveProfileInner) : List TrieveProfileInner :=
  dedupKeepFirstGo [] profiles

/-- The upsert result as claim C3 words it: every entry with the new
name removed, then global dedup keeping first occurrences, then the
selected flags cleared, then the new selected entry appended. -/
def claimUpsert (profiles : List TrieveProfileInner) (profile_name : String)
    (config : TrieveConfiguration) : List TrieveProfileInner :=
  (clearSelected (dedupKeepFirst (profiles.filter (fun p => !(p.name == profile_name)))))
    ++ [{ name := profile_name, settings := config, selected := true }]

/-- The upsert result the code actually computes on the proceeding
paths: entries with the new name are removed only when some entry with
that name has a non-nil organization uuid; then adjacent runs of equal
names are collapsed; then selected is cleared; then the new selected
entry is appended. -/
def amendedUpsert (profiles : List TrieveProfileInner) (profile_name : String)
    (config : TrieveConfiguration) : List TrieveProfileInner :=
  let base :=
    if needsConfirm profiles profile_name then
      profiles.filter (fun p => !(p.name == profile_name))
    else profiles
  clearSelected (dedupByName base)
    ++ [{ name := profile_name, settings := config, selected := true }]

/-- A provisioned configuration used as the login result in concrete
instances: non-empty api key, non-nil organization uuid. -/
def cfgK : TrieveConfiguration :=
  { api_key := "K", organization_id := 7, api_url := "https://api.trieve.ai" }

/-- A stored profile named "a" with nil organization uuid and an empty
api key (unprovisioned in every sense). -/
def unprovA : TrieveProfileInner :=
  { name := "a", settings := { api_key := "", organization_id := 0, api_url := "u" },
    selected := false }

/-- A stored profile named "a" with nil organization uuid but a
non-empty api key: provisioned by the spec's definition (credential
present), unprovisioned by the code's test (organization uuid nil). -/
def keyedA : TrieveProfileInner :=
  { name := "a", settings := { api_key := "k", organization_id := 0, api_url := "u" },
    selected := true }

/-- A selected profile named "a" with the default settings. -/
def selA : TrieveProfileInner :=
  { name := "a", settings := TrieveConfiguration.default, selected := true }
/-- A non-selected profile named "b" carrying the provisioned settings. -/
def profB : TrieveProfileInner :=
  { name := "b", settings := cfgK, selected := false }

/-- A non-selected profile named "o" with the default settings, used as
the unrelated entry in the organization-switch instance. -/
def profO : TrieveProfileInner :=
  { name := "o", settings := TrieveConfiguration.default, selected := false }

/-- A selected profile named "m" whose settings are the active ones in
the organization-switch instance. -/
def profM : TrieveProfileInner :=
  { name := "m", settings := cfgK, selected := true }

/-- The two profiles of the delete counterexample share the name "a";
the first is selected. -/
def dupA : List TrieveProfileInner :=
  [{ name := "a", settings := cfgK, selected := true },
   { name := "a", settings := TrieveConfiguration.default, selected := false }]

theorem countSelected_clearSelected (l : List TrieveProfileInner) :
    countSelected (clearSelected l) = 0 := by
  induction l with
  | nil => rfl
  | cons p t ih =>
    simp only [clearSelected, List.map_cons, countSelected, List.countP_cons] at ih ⊢
    simp [ih]

theorem countSelected_append (l1 l2 : List TrieveProfileInner) :
    countSelected (l1 ++ l2) = countSelected l1 + countSelected l2 :=
  List.countP_append _ _ _

/-- C1 (counterexample).  The persisted-store invariants do not survive
every mutation sequence: starting from the default persisted collection
(one profile "default", nil organization uuid, selected = false), a
login that keeps the name "default" skips the retain branch (the
existing entry has a nil organization uuid), so the persisted result
holds two entries named "default"; a subsequent switch_profile to
"default" then marks both entries selected, so the persisted collection
has two selected entries. -/
theorem c1_invariant_cex :
    loginStore defaultProfiles "default" cfgK true =
      .saved [TrieveProfileInner.default,
              { name := "default", settings := cfgK, selected := true }] ∧
    namesDistinct [TrieveProfileInner.default,
              { name := "default", settings := cfgK, selected := true }] = false ∧
    switchProfileStore [TrieveProfileInner.default,
              { name := "default", settings := cfgK, selected := true }] "default" =
      .saved [{ name := "default", settings := TrieveConfiguration.default, selected := true },
              { name := "default", settings := cfgK, selected := true }] ∧
    countSelected
      [{ name := "default", settings := TrieveConfiguration.default, selected := true },
       { name := "default", settings := cfgK, selected := true }] = 2 := by
  decide

/-- C1 (amended).  What the mutations do guarantee: every collection
persisted by the login mutation is non-empty and has exactly one entry
with selected = true (the selected flags are cleared and the single new
entry is appended selected).  Name uniqueness, and preservation of the
single-selection count by the other mutations, do not hold in
general. -/
theorem c1_login_one_selected (profiles : List TrieveProfileInner) (profile_name : String)
    (config : TrieveConfiguration) (overwrite : Bool) (r : List TrieveProfileInner)
    (h : loginStore profiles profile_name config overwrite = .saved r) :
    countSelected r = 1 ∧ r ≠ [] := by
  unfold loginStore at h
  by_cases h1 : needsConfirm profiles profile_name
  · cases overwrite with
    | false => simp [h1] at h
    | true =>
      simp only [h1, if_true] at h
      injection h with h
      subst h
      constructor
      · rw [countSelected_append, countSelected_clearSelected]
        rfl
      · simp
  · simp only [h1, if_false, Bool.false_eq_true] at h
    injection h with h
    subst h
    constructor
    · rw [countSelected_append, countSelected_clearSelected]
      rfl
    · simp

/-- Witness for c1_login_one_selected at the empty prior collection and
profile name "a". -/
theorem c1_login_one_selected_wit :
    countSelected [{ name := "a", settings := cfgK, selected := true }] = 1 ∧
    [{ name := "a", settings := cfgK, selected := true }] ≠ ([] : List TrieveProfileInner) :=
  c1_login_one_selected [] "a" cfgK true _ (by decide)

/-- C3 (counterexample).  The claim predicts that login on name "a"
over a store holding an (unprovisioned) entry named "a" removes that
entry, leaving exactly the new profile; the code skips the retain
branch because the stored entry has a nil organization uuid, and
dedup_by_key never compares the old entry with the appended one, so the
persisted store keeps both entries named "a". -/
theorem c3_upsert_cex :
    loginStore [unprovA] "a" cfgK true =
      .saved [unprovA, { name := "a", settings := cfgK, selected := true }] ∧
    claimUpsert [unprovA] "a" cfgK =
      [{ name := "a", settings := cfgK, selected := true }] ∧
    loginStore [unprovA] "a" cfgK true ≠ .saved (claimUpsert [unprovA] "a" cfgK) := by
  decide

/-- C3 (amended).  What login actually persists when it proceeds past
any confirmation: entries bearing the new name are removed only when
some entry with that name has a non-nil organization uuid; then runs of
consecutive equal names are collapsed to their first entry (non-adjacent
duplicates survive); then selected is cleared everywhere; then the new
selected profile is appended. -/
theorem c3_upsert_amended (profiles : List TrieveProfileInner) (profile_name : String)
    (config : TrieveConfiguration) :
    loginStore profiles profile_name config true =
      .saved (amendedUpsert profiles profile_name config) := by
  unfold loginStore amendedUpsert
  by_cases h : needsConfirm profiles profile_name <;> simp [h, clearSelected]

/-- C4 (counterexample).  A profile with nil organization uuid and a
non-empty api key is provisioned in the claim's sense (credential
present), so the claim requires an overwrite confirmation; the code
tests only the organization uuid, shows no prompt, and proceeds to save
even though the (never-shown) confirmation was refused. -/
theorem c4_confirm_cex :
    claimNeedsConfirm [keyedA] "a" = true ∧
    needsConfirm [keyedA] "a" = false ∧
    loginStore [keyedA] "a" cfgK false ≠ .cancelled := by
  decide

/-- C4 (amended).  login aborts with exit status 0 (saving nothing) on
a refused overwrite exactly when some entry with the requested name has
a non-nil organization uuid; the api key plays no part in the
condition. -/
theorem c4_refusal_iff (profiles : List TrieveProfileInner) (profile_name : String)
    (config : TrieveConfiguration) :
    loginStore profiles profile_name config false = .cancelled ↔
      needsConfirm profiles profile_name = true := by
  unfold loginStore
  by_cases h : needsConfirm profiles profile_name <;> simp [h]

/-- C6 (counterexample).  delete_profile on the default persisted
collection — exactly one entry, which is not selected — does not fail
with LastProfile: the guard is only evaluated when the deleted entry
was selected, so the code persists the empty collection. -/
theorem c6_last_profile_cex :
    deleteProfileStore defaultProfiles "default" = .saved [] ∧
    DeleteResult.saved [] ≠ DeleteResult.lastProfile := by
  decide

/-- C6 (amended).  delete_profile on a single-entry collection fails
with LastProfile (exit(1), nothing saved) exactly when that entry is
selected; when the single entry is not selected the code persists the
empty collection instead. -/
theorem c6_delete_single (prof : TrieveProfileInner) (profile_name : String)
    (h : prof.name = profile_name) :
    deleteProfileStore [prof] profile_name =
      (if prof.selected then .lastProfile else .saved []) := by
  have hb : (prof.name == profile_name) = true := by simp [h]
  unfold deleteProfileStore
  simp only [List.find?, hb, List.filter, Bool.not_true, List.isEmpty_nil, if_true]

/-- Witness for c6_delete_single at a selected single entry named
"a". -/
theorem c6_delete_single_wit :
    deleteProfileStore [selA] "a" = .lastProfile := by
  have h := c6_delete_single selA "a" rfl
  simpa using h


theorem filter_not_eq_eraseP {α : Type} (pr : α → Bool) (l : List α)
    (h : l.countP pr ≤ 1) : l.filter (fun a => !(pr a)) = l.eraseP pr := by
  induction l with
  | nil => rfl
  | cons a t ih =>
    cases hpa : pr a
    · rw [List.countP_cons_of_neg _ _ (by simp [hpa])] at h
      rw [List.filter_cons, List.eraseP_cons_of_neg (by simp [hpa])]
      simp [hpa, ih h]
    · rw [List.countP_cons_of_pos _ _ hpa] at h
      have h0 : t.countP pr = 0 := by omega
      rw [List.filter_cons, List.eraseP_cons_of_pos hpa]
      simp only [hpa, Bool.not_true]
      rw [if_neg (by simp)]
      rw [List.filter_eq_self.mpr]
      intro b hb
      simp [List.countP_eq_zero.mp h0 b hb]

theorem length_filter_not_add {α : Type} (pr : α → Bool) (l : List α) :
    (l.filter (fun a => !(pr a))).length + l.countP pr = l.length := by
  induction l with
  | nil => rfl
  | cons a t ih =>
    rw [List.filter_cons, List.countP_cons]
    cases hpa : pr a <;> simp [hpa] <;> omega

/-- C7 (counterexample).  With two entries both named "a" (the first
selected), delete_profile of "a" filters out both entries, finds the
remaining collection empty and exits with the last-profile error
instead of deleting exactly the one entry. -/
theorem c7_delete_cex :
    dupA.length = 2 ∧ deleteProfileStore dupA "a" = .lastProfile := by
  decide

/-- C7 (amended).  For every collection with at least two entries in
which exactly one entry bears the requested name, delete_profile
removes exactly that entry; if the removed entry was selected the first
remaining entry is promoted to selected = true before persisting, and
otherwise every other entry is persisted verbatim. -/
theorem c7_delete_unique (profiles : List TrieveProfileInner) (profile_name : String)
    (p : TrieveProfileInner)
    (hfind : profiles.find? (fun q => q.name == profile_name) = some p)
    (hcount : profiles.countP (fun q => q.name == profile_name) = 1)
    (hlen : 2 ≤ profiles.length) :
    deleteProfileStore profiles profile_name =
      .saved (if p.selected then
                promoteFirst (profiles.eraseP (fun q => q.name == profile_name))
              else profiles.eraseP (fun q => q.name == profile_name)) := by
  have hfil : profiles.filter (fun q => !(q.name == profile_name)) =
      profiles.eraseP (fun q => q.name == profile_name) :=
    filter_not_eq_eraseP _ _ (by omega)
  have hlen2 := length_filter_not_add (fun q => q.name == profile_name) profiles
  have hne : (profiles.filter (fun q => !(q.name == profile_name))).isEmpty = false := by
    rcases hfl : profiles.filter (fun q => !(q.name == profile_name)) with _ | ⟨b, t⟩
    · rw [hfl] at hlen2
      simp only [List.length_nil, Nat.zero_add, hcount] at hlen2
      omega
    · rw [hfl]
      rfl
  rw [hfil] at hne
  unfold deleteProfileStore
  rw [hfind]
  cases hs : p.selected
  · simp [hs, hfil]
  · simp [hs, hne, hfil]

/-- Witness for c7_delete_unique: deleting the selected profile "a"
from a two-entry store promotes "b". -/
theorem c7_delete_unique_wit :
    deleteProfileStore [selA, profB] "a" =
      .saved [{ name := "b", settings := cfgK, selected := true }] := by
  have h := c7_delete_unique [selA, profB] "a" selA (by decide) (by decide) (by decide)
  rw [h]
  decide

/-- C5 (confirmed).  switch_organization rewrites the store pointwise:
the collection keeps its length, every entry whose settings equal the
pre-switch active settings keeps its name, has its settings replaced by
its own settings with only organization_id changed, and becomes
selected; every other entry keeps its name and settings untouched with
only selected forced to false. -/
theorem c5_switch_org_frame (profiles : List TrieveProfileInner)
    (settings : TrieveConfiguration) (newOrg : Nat) (i : Nat)
    (hi : i < profiles.length) :
    (switchOrgStore profiles settings newOrg).length = profiles.length ∧
    (switchOrgStore profiles settings newOrg)[i]? =
      some (if profiles[i].settings = settings then
              { name := profiles[i].name,
                settings := { profiles[i].settings with organization_id := newOrg },
                selected := true }
            else { profiles[i] with selected := false }) := by
  constructor
  · simp [switchOrgStore]
  · by_cases h : profiles[i].settings = settings
    · simp [switchOrgStore, List.getElem?_eq_getElem hi, h]
    · simp [switchOrgStore, List.getElem?_eq_getElem hi, h]

/-- Witness for c5_switch_org_frame: two profiles, one matching the
active settings and one not; only the matching one's organization uuid
and selected flag change, the other entry is persisted with its name
and settings untouched. -/
theorem c5_switch_org_frame_wit :
    (switchOrgStore [profM, profO] cfgK 9)[0]? =
      some { name := "m",
             settings := { api_key := "K", organization_id := 9,
                           api_url := "https://api.trieve.ai" },
             selected := true } ∧
    (switchOrgStore [profM, profO] cfgK 9)[1]? = some profO := by
  have h0 := c5_switch_org_frame [profM, profO] cfgK 9 0 (by decide)
  have h1 := c5_switch_org_frame [profM, profO] cfgK 9 1 (by decide)
  constructor
  · rw [h0.2]
    decide
  · rw [h1.2]
    decide

theorem leadsList_length (pat : List Char) :
    ∀ s, leadsList pat s = true → pat.length ≤ s.length := by
  induction pat with
  | nil =>
    intro s _
    simp
  | cons a pat ih =>
    intro s h
    cases s with
    | nil => simp [leadsList] at h
    | cons b s =>
      simp only [leadsList, Bool.and_eq_true] at h
      have := ih s h.2
      simp only [List.length_cons]
      omega

theorem strFind_bound (pat : List Char) :
    ∀ s i, strFind pat s = some i → i + pat.length ≤ s.length := by
  intro s
  induction s with
  | nil =>
    intro i h
    unfold strFind at h
    cases hl : leadsList pat []
    · rw [hl] at h
      simp at h
    · rw [hl] at h
      simp at h
      have hp := leadsList_length pat [] hl
      simp only [List.length_nil] at hp ⊢
      omega
  | cons b t ih =>
    intro i h
    unfold strFind at h
    cases hl : leadsList pat (b :: t)
    · rw [hl] at h
      simp only [Bool.false_eq_true, if_false, Option.map_eq_some'] at h
      obtain ⟨j, hj, hji⟩ := h
      have := ih j hj
      simp only [List.length_cons]
      omega
    · rw [hl] at h
      simp at h
      have hp := leadsList_length pat (b :: t) hl
      simp only [List.length_cons] at hp ⊢
      omega

theorem strFind_isSome (pat : List Char) :
    ∀ s, (strFind pat s).isSome = containsSub pat s := by
  intro s
  induction s with
  | nil =>
    unfold strFind containsSub
    cases hl : leadsList pat [] <;> simp
  | cons b t ih =>
    unfold strFind containsSub
    cases hl : leadsList pat (b :: t) <;> simp [ih]

theorem charFind_lt (c : Char) :
    ∀ s p, charFind c s = some p → p < s.length := by
  intro s
  induction s with
  | nil =>
    intro p h
    simp [charFind] at h
  | cons d t ih =>
    intro p h
    unfold charFind at h
    cases hd : d == c
    · rw [hd] at h
      simp only [Bool.false_eq_true, if_false, Option.map_eq_some'] at h
      obtain ⟨j, hj, hji⟩ := h
      have := ih j hj
      simp only [List.length_cons]
      omega
    · rw [hd] at h
      simp at h
      simp only [List.length_cons]
      omega

theorem charFind_none_takeWhile (c : Char) :
    ∀ s, charFind c s = none → s.takeWhile (fun d => !(d == c)) = s := by
  intro s
  induction s with
  | nil =>
    intro _
    rfl
  | cons d t ih =>
    intro h
    unfold charFind at h
    cases hd : d == c
    · rw [hd] at h
      simp only [Bool.false_eq_true, if_false, Option.map_eq_none'] at h
      rw [List.takeWhile_cons]
      simp [hd, ih h]
    · rw [hd] at h
      simp at h

theorem charFind_takeWhile_take (c : Char) :
    ∀ s p, charFind c s = some p → s.takeWhile (fun d => !(d == c)) = s.take p := by
  intro s
  induction s with
  | nil =>
    intro p h
    simp [charFind] at h
  | cons d t ih =>
    intro p h
    unfold charFind at h
    cases hd : d == c
    · rw [hd] at h
      simp only [Bool.false_eq_true, if_false, Option.map_eq_some'] at h
      obtain ⟨j, hj, hji⟩ := h
      rw [List.takeWhile_cons, ← hji]
      simp [hd, ih j hj]
    · rw [hd] at h
      simp at h
      rw [List.takeWhile_cons, ← h]
      simp [hd]

/-- C9 (confirmed).  Whenever the request has a first line, that line
has a second whitespace-separated field (the request target), and the
target contains the apiKey= marker at leftmost index start_pos, the
extractor returns exactly the part of the target between the end of
that first marker occurrence and the next ampersand (or the end of the
target when no ampersand follows). -/
theorem c9_extract_marker (request line url_part : List Char) (start_pos : Nat)
    (h1 : firstLine request = some line)
    (h2 : (splitWs line)[1]? = some url_part)
    (h3 : strFind apiKeyMarker url_part = some start_pos) :
    extract_api_key request = some (specTokenAt url_part start_pos) := by
  unfold extract_api_key specTokenAt
  rw [h1]
  simp only [h2, h3]
  cases h4 : charFind '&' (url_part.drop (start_pos + apiKeyMarker.length)) with
  | none =>
    simp only [List.take_length]
    rw [charFind_none_takeWhile _ _ h4]
  | some pos =>
    rw [List.drop_take, charFind_takeWhile_take _ _ _ h4, Nat.add_sub_cancel_left]

/-- Witness for c9_extract_marker at the spec's concrete request line:
the extractor yields "ABC123". -/
theorem c9_extract_marker_wit :
    extract_api_key ("GET /?apiKey=ABC123&x=1 HTTP/1.1".toList) = some ("ABC123".toList) := by
  have h := c9_extract_marker ("GET /?apiKey=ABC123&x=1 HTTP/1.1".toList)
    ("GET /?apiKey=ABC123&x=1 HTTP/1.1".toList) ("/?apiKey=ABC123&x=1".toList) 2
    (by decide) (by decide) (by decide)
  rw [h]
  decide

/-- C10 (confirmed).  On every input the extractor runs to completion
with both Rust string slices in bounds (the bounds-checked variant
never reaches its panic outcome and agrees with the plain function),
and it returns None exactly when no token is extractable: no first
line, no second whitespace-separated field, or no apiKey= marker in the
target. -/
theorem c10_extract_total (request : List Char) :
    extractApiKeyChecked request = some (extract_api_key request) ∧
    (extract_api_key request).isSome = canExtract request := by
  unfold extractApiKeyChecked extract_api_key canExtract
  cases h1 : firstLine request with
  | none => simp
  | some line =>
    dsimp only
    cases h2 : (splitWs line)[1]? with
    | none => simp
    | some u =>
      dsimp only
      cases h3 : strFind apiKeyMarker u with
      | none =>
        have hc : containsSub apiKeyMarker u = false := by
          have hi := strFind_isSome apiKeyMarker u
          rw [h3] at hi
          simpa using hi.symm
        simp [hc]
      | some i =>
        dsimp only
        have hb := strFind_bound apiKeyMarker u i h3
        have hc : containsSub apiKeyMarker u = true := by
          have hi := strFind_isSome apiKeyMarker u
          rw [h3] at hi
          simpa using hi.symm
        have hs1 : sliceChecked u (i + apiKeyMarker.length) u.length =
            some (u.drop (i + apiKeyMarker.length)) := by
          unfold sliceChecked
          rw [if_pos (by simp [hb]), List.take_length]
        rw [hs1]
        dsimp only
        cases h4 : charFind '&' (u.drop (i + apiKeyMarker.length)) with
        | none =>
          rw [hs1]
          simp [hc]
        | some pos =>
          have hp := charFind_lt '&' _ pos h4
          rw [List.length_drop] at hp
          have hs2 : sliceChecked u (i + apiKeyMarker.length)
              (i + apiKeyMarker.length + pos) =
              some ((u.take (i + apiKeyMarker.length + pos)).drop
                (i + apiKeyMarker.length)) := by
            unfold sliceChecked
            rw [if_pos (by simp; omega)]
          rw [hs2]
          simp [hc]

theorem takeWhile_all (p : Char → Bool) :
    ∀ (l : List Char), (∀ a ∈ l, p a = true) → l.takeWhile p = l := by
  intro l h
  exact List.takeWhile_eq_self_iff.mpr h

theorem splitWsGo_all_not_ws :
    ∀ (s acc : List Char), (∀ c ∈ s, rustWhitespace c = false) →
      splitWsGo s acc = if (acc.reverse ++ s).isEmpty then [] else [acc.reverse ++ s] := by
  intro s
  induction s with
  | nil =>
    intro acc _
    unfold splitWsGo
    cases acc <;> simp
  | cons c rest ih =>
    intro acc h
    unfold splitWsGo
    rw [h c (by simp)]
    simp only [Bool.false_eq_true, if_false]
    rw [ih (c :: acc) (by intro d hd; exact h d (by simp [hd]))]
    simp

theorem splitWs_single (s : List Char) (hne : s ≠ [])
    (h : ∀ c ∈ s, rustWhitespace c = false) : splitWs s = [s] := by
  unfold splitWs
  rw [splitWsGo_all_not_ws s [] h]
  simp [hne]

theorem firstLine_no_newline (s : List Char) (hne : s ≠ [])
    (h : ∀ c ∈ s, (c == '\n') = false) : firstLine s = some s := by
  cases s with
  | nil => exact absurd rfl hne
  | cons c rest =>
    unfold firstLine
    have ht : (c :: rest).takeWhile (fun d => !(d == '\n')) = c :: rest := by
      apply takeWhile_all
      intro a ha
      simp [h a ha]
    simp [ht]

/-- C2 (code bug).  When the bytes read from a connection contain no
whitespace at all — in particular any garbage payload without a request
line structure — the 4096-byte buffer decodes to a single
whitespace-free line, the request target is absent, extraction returns
None, and handle_read's .unwrap() panics the per-connection task before
anything is sent on the channel.  The claim (and login_server's
contract as the spec states it) says the connection must be dropped
without sending and without crashing; the code panics instead. -/
theorem c2_handle_read_panics (payload : List Char)
    (h : ∀ c ∈ payload, rustWhitespace c = false) :
    handle_read (some payload) = .panicked := by
  have hall : ∀ c ∈ bufferChars payload, rustWhitespace c = false := by
    intro c hc
    unfold bufferChars at hc
    rcases List.mem_append.mp hc with h1 | h2
    · exact h c h1
    · rw [List.eq_of_mem_replicate h2]
      decide
  have hnl : ∀ c ∈ bufferChars payload, (c == '\n') = false := by
    intro c hc
    cases hb : c == '\n'
    · rfl
    · have hcn : c = '\n' := eq_of_beq hb
      have := hall c hc
      rw [hcn] at this
      exact absurd this (by decide)
  have hne : bufferChars payload ≠ [] := by
    intro he
    have hl := congrArg List.length he
    unfold bufferChars at hl
    simp only [List.length_append, List.length_replicate, List.length_nil] at hl
    omega
  have hkey : extract_api_key (bufferChars payload) = none := by
    unfold extract_api_key
    rw [firstLine_no_newline _ hne hnl]
    simp only [splitWs_single _ hne hall]
    rfl
  have hred : handle_read (some payload) =
      (match extract_api_key (bufferChars payload) with
        | some token => ReadOutcome.sent token
        | none => ReadOutcome.panicked) := rfl
  rw [hred, hkey]

/-- Witness for c2_handle_read_panics: a connection delivering the
ASCII bytes "hello" makes the handling task panic. -/
theorem c2_handle_read_panics_wit :
    handle_read (some ("hello".toList)) = .panicked :=
  c2_handle_read_panics ("hello".toList) (by decide)

/-- C8 (counterexample).  The fallback collection used when the
persisted state is absent or unreadable is not empty: it is the default
collection with one entry. -/
theorem c8_default_cex : loadProfiles none ≠ [] := by
  decide

/-- C8 (amended).  Loading the persisted profile store when the
persisted state is absent or unreadable yields the default one-entry
collection — a single profile named "default" with an empty api key,
nil organization uuid and selected = false — not an error; subsequent
commands proceed on that default. -/
theorem c8_default_load :
    loadProfiles none =
      [{ name := "default",
         settings := { api_key := "", organization_id := 0,
                       api_url := "https://api.trieve.ai" },
         selected := false }] := rfl
